import Mathlib

/-!
Shallow embedding of the minimal metal-cpp vector-addition example
(src/main.cc) and proofs of the specification's testable properties.

Modelling conventions:
* Machine `float` values are modelled by exact rationals (ℚ).  Every
  quantity a claim inspects here is either exactly representable in
  single precision (the powers of two and small integers of the
  bandwidth computation, the value `rand()/RAND_MAX` at the boundary
  `rand() = RAND_MAX`) or independent of rounding (equality tests,
  control flow), so the exact model is faithful for the statements made.
* The single place where IEEE-754 behaviour matters — division by a
  zero elapsed time — is modelled by `fdiv`, which maps division of a
  positive value by zero to a positive-infinity element, as IEEE-754
  prescribes for `float` division in C.
* Side effects (printf, assert) are modelled as an event trace; an
  `assert` failure ends the trace (the process aborts).
* `rand()` is modelled as an abstract C library (`CLib`): a seed-to-state
  function and a state-transition function.  Per the C standard, a
  program that never calls `srand` obtains the same sequence as one that
  called `srand(1)`; src/main.cc contains no call to `srand`, which the
  flag `mainCallsSrand := false` records.
-/

namespace MetalAdder

/-- arrayLength = 1 << 24 (src/main.cc line 9). -/
def arrayLength : Nat := 2 ^ 24

/-- Size in bytes of a C `float` on the target platform. -/
def sizeofFloat : Nat := 4

/-- bufferSize = arrayLength * sizeof(float) (src/main.cc line 10). -/
def bufferSize : Nat := arrayLength * sizeofFloat

/-- The byte sizes requested by the three `newBuffer` calls in
`prepareData` (src/main.cc lines 71-74), in order A, B, Result. -/
def allocationSizes : List Nat := [bufferSize, bufferSize, bufferSize]

/-- The thread-group size computed in `encodeAddCommand`
(src/main.cc lines 117-121): start from the pipeline's
`maxTotalThreadsPerThreadgroup` and clamp it to `arrayLength`. -/
def threadGroupSize (maxTotal : Nat) : Nat :=
  if maxTotal > arrayLength then arrayLength else maxTotal

/-- A Metal `MTL::Size` value (width, height, depth). -/
structure MTLSize where
  width : Nat
  height : Nat
  depth : Nat

/-- The grid size passed to `dispatchThreads`
(src/main.cc line 115): `MTL::Size::Make(arrayLength, 1, 1)`. -/
def gridSize : MTLSize := ⟨arrayLength, 1, 1⟩

/-- Number of kernel threads launched by `dispatchThreads`: Metal
launches exactly `width * height * depth` threads for this grid. -/
def dispatchedThreadCount : Nat := gridSize.width * gridSize.height * gridSize.depth

/-- The grid positions (`thread_position_in_grid`) of the launched
threads of the one-dimensional dispatch, one entry per thread. -/
def dispatchedIndices : List Nat := List.range dispatchedThreadCount

/-- The host-visible contents of the three shared buffers. -/
structure Memory where
  bufA : Nat → ℚ
  bufB : Nat → ℚ
  bufResult : Nat → ℚ

/-- Outcome of `verifyResults`: normal return, or an `assert` abort at
the first mismatching index. -/
inductive VerifyOutcome
  | ok
  | abortAt (idx : Nat)
deriving DecidableEq

/-- The loop of `verifyResults` (src/main.cc lines 132-138), with the
memory threaded through explicitly: starting at index `i` with `fuel`
iterations left, compare `result[index]` with `a[index] + b[index]`
using exact equality; on the first mismatch the `assert` aborts. -/
def verifyLoop (m : Memory) : Nat → Nat → VerifyOutcome × Memory
  | _, 0 => (.ok, m)
  | i, fuel + 1 =>
    if m.bufResult i = m.bufA i + m.bufB i then
      verifyLoop m (i + 1) fuel
    else
      (.abortAt i, m)

/-- `MetalAdder::verifyResults` (src/main.cc lines 127-139): run the
comparison loop over all of `[0, arrayLength)`. -/
def verifyResults (m : Memory) : VerifyOutcome × Memory :=
  verifyLoop m 0 arrayLength

/-- Result of a C `float` arithmetic operation, with the IEEE-754
non-finite values needed to model division by zero. -/
inductive FVal
  | finite (q : ℚ)
  | posInf
  | negInf
  | nan
deriving DecidableEq

/-- IEEE-754 `float` division restricted to exactly-represented
operands: a nonzero finite value divided by zero gives a signed
infinity, `0 / 0` gives NaN, otherwise the exact quotient. -/
def fdiv (x y : ℚ) : FVal :=
  if y = 0 then
    if 0 < x then .posInf else if x < 0 then .negInf else .nan
  else
    .finite (x / y)

/-- Observable host-side events of one run: the two `printf` report
lines, the mismatch report of `verifyResults`, and an `assert` abort. -/
inductive Event
  | printElapsed (t : ℤ)
  | printBW (v : FVal)
  | computeError (idx : Nat)
  | assertFail
deriving DecidableEq

/-- Whether an event is one of the two timing-report `printf` lines. -/
def isPrintEvent : Event → Bool
  | .printElapsed _ => true
  | .printBW _ => true
  | _ => false

/-- `true` when the trace contains an `assertFail` that is preceded by
at least one timing-report print event (`seen` carries whether a print
has been passed already). -/
def abortAfterPrint : List Event → Bool → Bool
  | [], _ => false
  | .assertFail :: _, seen => seen
  | e :: rest, seen => abortAfterPrint rest (seen || isPrintEvent e)

/-- The event trace of the `verifyResults` loop (src/main.cc lines
132-138): silent while elements match; at the first mismatch it prints
the `Compute ERROR` line and the `assert` aborts the run. -/
def verifyTrace (a b r : Nat → ℚ) : Nat → Nat → List Event
  | _, 0 => []
  | i, fuel + 1 =>
    if r i = a i + b i then
      verifyTrace a b r (i + 1) fuel
    else
      [.computeError i, .assertFail]

/-- The elapsed milliseconds computed in `sendComputeCommand`
(src/main.cc lines 90-95) from the two clock reads. -/
def reportedElapsed (ta tb : ℤ) : ℤ := tb - ta

/-- The numerator of the bandwidth expression, exactly as associated in
the source (src/main.cc line 98): `2000.0f * bufferSize / 1024 / 1024 / 1024`.
Every intermediate value is exactly representable in single precision. -/
def bwRaw : ℚ := 2000 * (bufferSize : ℚ) / 1024 / 1024 / 1024

/-- The bandwidth value printed by `sendComputeCommand`
(src/main.cc lines 97-98): the final division by `elapsed`, as a
`float` division (IEEE-754 for `elapsed = 0`). -/
def reportedBandwidth (elapsed : ℤ) : FVal := fdiv bwRaw (elapsed : ℚ)

/-- The observable trace of `MetalAdder::sendComputeCommand`
(src/main.cc lines 80-100) after the synchronous wait: print the
elapsed time, print the bandwidth, then run `verifyResults`.
`ta` and `tb` are the two `system_clock::now()` readings in
milliseconds; `a`, `b`, `r` are the buffer contents at that point. -/
def sendComputeCommandTrace (ta tb : ℤ) (a b r : Nat → ℚ) : List Event :=
  .printElapsed (reportedElapsed ta tb) ::
  .printBW (reportedBandwidth (reportedElapsed ta tb)) ::
  verifyTrace a b r 0 arrayLength

/-- RAND_MAX of the target C library (2^31 - 1 on the macOS hosts this
program targets; any value ≥ 32767 gives the same conclusions). -/
def RAND_MAX : Nat := 2 ^ 31 - 1

/-- One element written by `generateRandomFloatData`
(src/main.cc line 105): `(float)rand() / (float)(RAND_MAX)` for a
`rand()` return value `v`. -/
def genValue (v : Nat) : ℚ := (v : ℚ) / (RAND_MAX : ℚ)

/-- `MetalAdder::generateRandomFloatData` (src/main.cc lines 102-107)
as a function of the stream of `rand()` return values: element `i` of
the filled buffer is `rand()` call `i` divided by RAND_MAX. -/
def generateRandomFloatData (stream : Nat → Nat) : Nat → ℚ :=
  fun i => genValue (stream i)

/-- An abstract C standard library PRNG: `seedState s` is the internal
state right after `srand(s)`, and `next` maps a state to the pair of
the `rand()` return value and the successor state. -/
structure CLib where
  seedState : Nat → Nat
  next : Nat → Nat × Nat

/-- Drawing `n` successive `rand()` values from state `s`, returning
the values and the final state. -/
def randList (lib : CLib) : Nat → Nat → List Nat × Nat
  | s, 0 => ([], s)
  | s, n + 1 =>
    let p := lib.next s
    let q := randList lib p.2 n
    (p.1 :: q.1, q.2)

/-- Whether src/main.cc ever calls `srand`: it does not (no call site
anywhere in the file). -/
def mainCallsSrand : Bool := false

/-- The PRNG state in effect when `main` starts generating data.
`envSeed` stands for whatever run-varying entropy a seeding call would
have used; per the C standard an unseeded program behaves as if
`srand(1)` had been called, so the environment seed is unused exactly
when `mainCallsSrand` is `false`. -/
def initialRandState (lib : CLib) (envSeed : Nat) : Nat :=
  if mainCallsSrand then lib.seedState envSeed else lib.seedState 1

/-- The `rand()` value streams that fill buffers A and B in one run of
the program (`prepareData` calls `generateRandomFloatData` on A then on
B, src/main.cc lines 76-77), as a function of the C library and the
run's environment entropy. -/
def programInputs (lib : CLib) (envSeed : Nat) : List Nat × List Nat :=
  let s0 := initialRandState lib envSeed
  let ra := randList lib s0 arrayLength
  let rb := randList lib ra.2 arrayLength
  (ra.1, rb.1)

/-- A concrete C library for evaluation: the classic POSIX-example
linear congruential generator. -/
def lcgLib : CLib :=
  ⟨fun s => s, fun s => (s % (RAND_MAX + 1), (s * 1103515245 + 12345) % 2 ^ 31)⟩

/-! Helper lemmas about the verification loop. -/

/-- The loop returns `ok` exactly when every index in its range matches. -/
lemma verifyLoop_ok_iff (m : Memory) :
    ∀ (fuel i : Nat), (verifyLoop m i fuel).1 = VerifyOutcome.ok ↔
      ∀ j, i ≤ j → j < i + fuel → m.bufResult j = m.bufA j + m.bufB j := by
  intro fuel
  induction fuel with
  | zero =>
    intro i
    constructor
    · intro _ j h1 h2
      omega
    · intro _
      rfl
  | succ p ih =>
    intro i
    by_cases hc : m.bufResult i = m.bufA i + m.bufB i
    · rw [verifyLoop, if_pos hc, ih (i + 1)]
      constructor
      · intro H j h1 h2
        rcases Nat.eq_or_lt_of_le h1 with he | hl
        · exact he ▸ hc
        · exact H j hl (by omega)
      · intro H j h1 h2
        exact H j (by omega) (by omega)
    · rw [verifyLoop, if_neg hc]
      constructor
      · intro h
        exact absurd h (by simp)
      · intro H
        exact absurd (H i (Nat.le_refl i) (by omega)) hc

/-- If the loop aborts at `j`, then `j` lies in its range and is a
genuine mismatch. -/
lemma verifyLoop_abort (m : Memory) :
    ∀ (fuel i j : Nat), (verifyLoop m i fuel).1 = VerifyOutcome.abortAt j →
      i ≤ j ∧ j < i + fuel ∧ m.bufResult j ≠ m.bufA j + m.bufB j := by
  intro fuel
  induction fuel with
  | zero =>
    intro i j h
    exact absurd h (by simp [verifyLoop])
  | succ p ih =>
    intro i j h
    by_cases hc : m.bufResult i = m.bufA i + m.bufB i
    · rw [verifyLoop, if_pos hc] at h
      obtain ⟨h1, h2, h3⟩ := ih (i + 1) j h
      exact ⟨by omega, by omega, h3⟩
    · rw [verifyLoop, if_neg hc] at h
      simp only [VerifyOutcome.abortAt.injEq] at h
      subst h
      exact ⟨Nat.le_refl i, by omega, hc⟩

/-- The loop never writes to memory. -/
lemma verifyLoop_mem (m : Memory) :
    ∀ (fuel i : Nat), (verifyLoop m i fuel).2 = m := by
  intro fuel
  induction fuel with
  | zero =>
    intro i
    rfl
  | succ p ih =>
    intro i
    by_cases hc : m.bufResult i = m.bufA i + m.bufB i
    · rw [verifyLoop, if_pos hc]
      exact ih (i + 1)
    · rw [verifyLoop, if_neg hc]

/-- C1: for every index i in [0, arrayLength), `verifyResults` compares
Result[i] against A[i] + B[i] with exact equality and no tolerance; the
check is exhaustive (it returns normally iff every single index
matches), and any run that does not return normally is an assertion
abort at a genuinely mismatching index inside the range. -/
theorem verifyResults_exact_exhaustive_abort :
    ∀ m : Memory,
      ((verifyResults m).1 = VerifyOutcome.ok ↔
        ∀ i, i < arrayLength → m.bufResult i = m.bufA i + m.bufB i) ∧
      (∀ j, (verifyResults m).1 = VerifyOutcome.abortAt j →
        j < arrayLength ∧ m.bufResult j ≠ m.bufA j + m.bufB j) := by
  intro m
  constructor
  · rw [verifyResults, verifyLoop_ok_iff]
    constructor
    · intro H i hi
      exact H i (Nat.zero_le i) (by omega)
    · intro H j _ hj
      exact H j (by omega)
  · intro j hj
    obtain ⟨_, h2, h3⟩ := verifyLoop_abort m arrayLength 0 j hj
    exact ⟨by omega, h3⟩

/-- Witness for C1: on the all-zero memory (where 0 = 0 + 0 at every
index) `verifyResults` returns normally. -/
theorem verifyResults_exact_exhaustive_abort_witness :
    (verifyResults ⟨fun _ => 0, fun _ => 0, fun _ => 0⟩).1 = VerifyOutcome.ok :=
  (verifyResults_exact_exhaustive_abort ⟨fun _ => 0, fun _ => 0, fun _ => 0⟩).1.mpr
    (fun i _ => by norm_num)

/-- C9: `verifyResults` only reads the buffers: the memory it returns
is exactly the memory it was given — A, B and Result are unchanged. -/
theorem verifyResults_frame :
    ∀ m : Memory,
      (verifyResults m).2 = m ∧
      (verifyResults m).2.bufA = m.bufA ∧
      (verifyResults m).2.bufB = m.bufB ∧
      (verifyResults m).2.bufResult = m.bufResult := by
  intro m
  have h : (verifyResults m).2 = m := verifyLoop_mem m arrayLength 0
  exact ⟨h, by rw [h], by rw [h], by rw [h]⟩

/-- C5: the thread-group size used by `encodeAddCommand` never exceeds
the minimum of the reported `maxTotalThreadsPerThreadgroup` and
`arrayLength`, whatever the pipeline reports. -/
theorem threadGroupSize_le_min :
    ∀ maxTotal : Nat, threadGroupSize maxTotal ≤ min maxTotal arrayLength := by
  intro maxTotal
  rw [threadGroupSize]
  split <;> omega

/-- C6: the dispatch launches exactly `arrayLength` threads over the
one-dimensional grid, and each array index in [0, arrayLength) is the
grid position of exactly one launched thread (indices outside the range
of none). -/
theorem dispatch_covers_each_index_once :
    dispatchedThreadCount = arrayLength ∧
    ∀ i : Nat, dispatchedIndices.count i = if i < arrayLength then 1 else 0 := by
  have hc : dispatchedThreadCount = arrayLength := by
    show gridSize.width * gridSize.height * gridSize.depth = arrayLength
    rfl
  refine ⟨hc, fun i => ?_⟩
  rw [dispatchedIndices, hc]
  by_cases h : i < arrayLength
  · rw [if_pos h]
    exact List.count_eq_one_of_mem (List.nodup_range arrayLength)
      (List.mem_range.mpr h)
  · rw [if_neg h]
    exact List.count_eq_zero.mpr (fun hm => h (List.mem_range.mp hm))

/-- C8: the three buffer allocations of `prepareData` all request the
identical size `arrayLength * sizeof(float)`, the compile-time constant
`bufferSize`. -/
theorem allocationSizes_all_equal :
    allocationSizes = List.replicate 3 (arrayLength * sizeofFloat) ∧
    bufferSize = arrayLength * sizeofFloat := ⟨rfl, rfl⟩

/-- If some index in the loop's range mismatches, the verification
trace is exactly the error line at the least mismatching index followed
by the assertion abort. -/
lemma verifyTrace_mismatch (a b r : Nat → ℚ) :
    ∀ (fuel i : Nat), (∃ j, i ≤ j ∧ j < i + fuel ∧ r j ≠ a j + b j) →
      ∃ j, i ≤ j ∧ j < i + fuel ∧ r j ≠ a j + b j ∧
        verifyTrace a b r i fuel = [.computeError j, .assertFail] := by
  intro fuel
  induction fuel with
  | zero =>
    intro i h
    obtain ⟨j, h1, h2, _⟩ := h
    omega
  | succ p ih =>
    intro i h
    by_cases hc : r i = a i + b i
    · obtain ⟨j, h1, h2, h3⟩ := h
      have hne : j ≠ i := fun he => h3 (he ▸ hc)
      obtain ⟨k, k1, k2, k3, k4⟩ := ih (i + 1) ⟨j, by omega, by omega, h3⟩
      refine ⟨k, by omega, by omega, k3, ?_⟩
      rw [verifyTrace, if_pos hc]
      exact k4
    · refine ⟨i, Nat.le_refl i, by omega, hc, ?_⟩
      rw [verifyTrace, if_neg hc]

/-- C2 counterexample: with buffers A = B = 0 and Result = 1 everywhere
(a mismatch at index 0) and clock readings 0 and 5 ms, the run's trace
prints the elapsed-time line and the bandwidth line first and only then
reaches the mismatch report and the assertion abort — so the abort does
not happen before the timing report, contrary to the claim. -/
theorem timing_printed_before_abort_cex :
    sendComputeCommandTrace 0 5 (fun _ => 0) (fun _ => 0) (fun _ => 1) =
      [Event.printElapsed 5, Event.printBW (FVal.finite 25),
       Event.computeError 0, Event.assertFail] ∧
    abortAfterPrint
      (sendComputeCommandTrace 0 5 (fun _ => 0) (fun _ => 0) (fun _ => 1))
      false = true := by
  have hbw : reportedBandwidth 5 = FVal.finite 25 := by
    rw [reportedBandwidth, fdiv, if_neg (by norm_num)]
    norm_num [bwRaw, bufferSize, arrayLength, sizeofFloat]
  have hvt : verifyTrace (fun _ => 0) (fun _ => 0) (fun _ => 1) 0 arrayLength =
      [Event.computeError 0, Event.assertFail] := by
    rw [show arrayLength = 16777215 + 1 from rfl, verifyTrace,
      if_neg (by norm_num)]
  have htrace : sendComputeCommandTrace 0 5 (fun _ => 0) (fun _ => 0) (fun _ => 1) =
      [Event.printElapsed 5, Event.printBW (FVal.finite 25),
       Event.computeError 0, Event.assertFail] := by
    rw [sendComputeCommandTrace, hvt,
      show reportedElapsed 0 5 = 5 by norm_num [reportedElapsed], hbw]
  refine ⟨htrace, ?_⟩
  rw [htrace]
  rfl

/-- C2 (amended): in every run the two timing-report lines are the
first two events of the trace, and when some element mismatches the
whole trace is those two print lines, then the mismatch report, then
the assertion abort — the run aborts only after the timing report. -/
theorem timing_report_precedes_verification :
    ∀ (ta tb : ℤ) (a b r : Nat → ℚ),
      (sendComputeCommandTrace ta tb a b r).take 2 =
        [Event.printElapsed (reportedElapsed ta tb),
         Event.printBW (reportedBandwidth (reportedElapsed ta tb))] ∧
      ((∃ i, i < arrayLength ∧ r i ≠ a i + b i) →
        ∃ j, j < arrayLength ∧ r j ≠ a j + b j ∧
          sendComputeCommandTrace ta tb a b r =
            [Event.printElapsed (reportedElapsed ta tb),
             Event.printBW (reportedBandwidth (reportedElapsed ta tb)),
             Event.computeError j, Event.assertFail]) := by
  intro ta tb a b r
  refine ⟨rfl, fun h => ?_⟩
  obtain ⟨i, hi, hne⟩ := h
  obtain ⟨j, _, j2, j3, j4⟩ :=
    verifyTrace_mismatch a b r arrayLength 0 ⟨i, Nat.zero_le i, by omega, hne⟩
  refine ⟨j, by omega, j3, ?_⟩
  rw [sendComputeCommandTrace, j4]

/-- Witness for C2's amended theorem: at the concrete mismatching run
it yields the concrete four-event trace. -/
theorem timing_report_precedes_verification_witness :
    ∃ j, j < arrayLength ∧ (fun _ : Nat => (1 : ℚ)) j ≠
        (fun _ : Nat => (0 : ℚ)) j + (fun _ : Nat => (0 : ℚ)) j ∧
      sendComputeCommandTrace 0 5 (fun _ => 0) (fun _ => 0) (fun _ => 1) =
        [Event.printElapsed (reportedElapsed 0 5),
         Event.printBW (reportedBandwidth (reportedElapsed 0 5)),
         Event.computeError j, Event.assertFail] :=
  (timing_report_precedes_verification 0 5 (fun _ => 0) (fun _ => 0) (fun _ => 1)).2
    ⟨0, by norm_num [arrayLength], by norm_num⟩

/-- C3 counterexample: `rand()` may return RAND_MAX itself, and then
the generated element is exactly 1, which is not < 1 — so the generated
values are not confined to the half-open interval [0, 1). -/
theorem generated_value_reaches_one_cex :
    (fun _ : Nat => RAND_MAX) 0 ≤ RAND_MAX ∧
    generateRandomFloatData (fun _ => RAND_MAX) 0 = 1 ∧
    ¬ generateRandomFloatData (fun _ => RAND_MAX) 0 < 1 := by
  have h1 : generateRandomFloatData (fun _ => RAND_MAX) 0 = 1 := by
    rw [generateRandomFloatData]
    rw [genValue, div_self]
    norm_num [RAND_MAX]
  exact ⟨Nat.le_refl RAND_MAX, h1, by rw [h1]; exact lt_irrefl 1⟩

/-- C3 (amended): for every stream of `rand()` values (each ≤ RAND_MAX)
every generated element lies in the closed interval [0, 1]; the value 1
is attained exactly when `rand()` returns RAND_MAX. -/
theorem generated_values_in_unit_interval :
    ∀ stream : Nat → Nat, (∀ i, stream i ≤ RAND_MAX) →
      ∀ i, 0 ≤ generateRandomFloatData stream i ∧
        generateRandomFloatData stream i ≤ 1 := by
  intro stream h i
  rw [generateRandomFloatData, genValue]
  constructor
  · positivity
  · rw [div_le_one (by norm_num [RAND_MAX])]
    exact_mod_cast h i

/-- Witness for C3's amended theorem: the all-zero stream is a valid
stream and its first generated element lies in [0, 1]. -/
theorem generated_values_in_unit_interval_witness :
    0 ≤ generateRandomFloatData (fun _ => 0) 0 ∧
    generateRandomFloatData (fun _ => 0) 0 ≤ 1 :=
  generated_values_in_unit_interval (fun _ => 0) (fun _ => Nat.zero_le _) 0

/-- C4 counterexample: with a concrete C library (the classic LCG) and
two runs whose environments would have provided the different seeds 42
and 7, the program generates identical input data in both runs — the
unseeded generator starts from `srand(1)` every time, so generation is
deterministic across runs, contrary to the claim. -/
theorem unseeded_runs_identical_cex :
    programInputs lcgLib 42 = programInputs lcgLib 7 := by
  rw [programInputs, programInputs,
    show initialRandState lcgLib 42 = initialRandState lcgLib 7 from rfl]

/-- C4 (amended): because the program never calls `srand`, the C
standard makes `rand()` behave as if seeded with 1, so any two runs
against the same C library produce identical contents in buffers A and
B — input generation is deterministic across runs. -/
theorem unseeded_runs_deterministic :
    ∀ (lib : CLib) (envSeed1 envSeed2 : Nat),
      programInputs lib envSeed1 = programInputs lib envSeed2 := by
  intro lib e1 e2
  rw [programInputs, programInputs,
    show initialRandState lib e1 = initialRandState lib e2 from rfl]

/-- C7: for every pair of clock readings with the second not earlier
than the first and every nonzero elapsed time t, the reported elapsed
time is ≥ 0 and the reported bandwidth is the finite value
2000 × bufferSize / 1024³ / t. -/
theorem bandwidth_formula :
    ∀ (ta tb t : ℤ), ta ≤ tb → t ≠ 0 →
      0 ≤ reportedElapsed ta tb ∧
      reportedBandwidth t =
        FVal.finite (2000 * (bufferSize : ℚ) / 1024 ^ 3 / (t : ℚ)) := by
  intro ta tb t hab ht
  constructor
  · rw [reportedElapsed]
    omega
  · have htq : (t : ℚ) ≠ 0 := Int.cast_ne_zero.mpr ht
    rw [reportedBandwidth, fdiv, if_neg htq]
    have hnum : bwRaw = 2000 * (bufferSize : ℚ) / 1024 ^ 3 := by
      norm_num [bwRaw, bufferSize, arrayLength, sizeofFloat]
    rw [hnum]

/-- Witness for C7: clock readings 0 and 3 ms and elapsed time 5 ms
give a nonnegative reported elapsed time and the bandwidth
2000 × bufferSize / 1024³ / 5. -/
theorem bandwidth_formula_witness :
    0 ≤ reportedElapsed 0 3 ∧
    reportedBandwidth 5 =
      FVal.finite (2000 * (bufferSize : ℚ) / 1024 ^ 3 / (5 : ℚ)) :=
  bandwidth_formula 0 3 5 (by norm_num) (by norm_num)

/-- C10: the bandwidth division has no zero guard: when the measured
elapsed time is 0 ms (both clock readings equal), the printed bandwidth
is the IEEE-754 result of dividing the positive constant by zero —
positive infinity — and the trace still continues into verification
after the two print lines instead of aborting at the division. -/
theorem zero_elapsed_prints_infinity_and_continues :
    reportedBandwidth 0 = FVal.posInf ∧
    ∀ (ta : ℤ) (a b r : Nat → ℚ),
      sendComputeCommandTrace ta ta a b r =
        Event.printElapsed 0 :: Event.printBW FVal.posInf ::
          verifyTrace a b r 0 arrayLength := by
  have hpos : (0 : ℚ) < bwRaw := by
    norm_num [bwRaw, bufferSize, arrayLength, sizeofFloat]
  have h0 : reportedBandwidth 0 = FVal.posInf := by
    rw [reportedBandwidth, fdiv]
    norm_num [hpos]
  refine ⟨h0, fun ta a b r => ?_⟩
  have he : reportedElapsed ta ta = 0 := by
    rw [reportedElapsed]
    omega
  rw [sendComputeCommandTrace, he, h0]

end MetalAdder
